import Mathlib

/-!
Verification development for the discovery repository's config synthesis and
idempotent persistence layer (`telegraf/common.go`, the Telegraf sink and the
`common` helper package).  Go values are embedded shallowly: Go maps become
association lists observed only through lookup, `[]byte` becomes `Option
String` (`none` models a nil slice), and the filesystem becomes an association
list from paths to contents.  Components of the repository that are referenced
but whose source is not part of this development (the input-record methods
`updateIncludeTags` and `build*`, the entity model of the `common` package,
`FileWriteWithCheckSum`, and the external TOML encoder and `utils` helpers)
are modelled from the specification; each such definition carries a doc
comment saying so.
-/

namespace Disco

/-! ## Byte-wise lexicographic string order (Go `sort.Strings`) -/

/-- Lexicographic comparison of char lists by code point, matching Go's
byte-wise comparison of UTF-8 strings. -/
def lexLe : List Char → List Char → Bool
  | [], _ => true
  | _ :: _, [] => false
  | c :: cs, d :: ds =>
    if c.toNat < d.toNat then true
    else if d.toNat < c.toNat then false
    else lexLe cs ds

/-- Lexicographic string comparison used by the embedded `sort.Strings`. -/
def strLe (a b : String) : Bool := lexLe a.data b.data

/-- The order relation induced by `strLe`. -/
def SLe (a b : String) : Prop := strLe a b = true

theorem lexLe_total (a b : List Char) : lexLe a b = true ∨ lexLe b a = true := by
  induction a generalizing b with
  | nil => left; rfl
  | cons c cs ih =>
    cases b with
    | nil => right; rfl
    | cons d ds =>
      rcases Nat.lt_trichotomy c.toNat d.toNat with h | h | h
      · left; simp [lexLe, h]
      · have hnd : ¬ d.toNat < c.toNat := by omega
        have hnc : ¬ c.toNat < d.toNat := by omega
        rcases ih ds with h' | h'
        · left; simp [lexLe, hnc, hnd, h']
        · right; simp [lexLe, hnc, hnd, h']
      · right; simp [lexLe, h]

theorem lexLe_trans {a b c : List Char} (h1 : lexLe a b = true)
    (h2 : lexLe b c = true) : lexLe a c = true := by
  induction a generalizing b c with
  | nil => rfl
  | cons x xs ih =>
    cases b with
    | nil => simp [lexLe] at h1
    | cons y ys =>
      cases c with
      | nil => simp [lexLe] at h2
      | cons z zs =>
        by_cases hxy : x.toNat < y.toNat
        · by_cases hyz : y.toNat < z.toNat
          · have : x.toNat < z.toNat := by omega
            simp [lexLe, this]
          · by_cases hzy : z.toNat < y.toNat
            · simp [lexLe, hyz, hzy] at h2
            · have : x.toNat < z.toNat := by omega
              simp [lexLe, this]
        · by_cases hyx : y.toNat < x.toNat
          · simp [lexLe, hxy, hyx] at h1
          · have hxey : x.toNat = y.toNat := by omega
            by_cases hyz : y.toNat < z.toNat
            · have : x.toNat < z.toNat := by omega
              simp [lexLe, this]
            · by_cases hzy : z.toNat < y.toNat
              · simp [lexLe, hyz, hzy] at h2
              · have hnxz : ¬ x.toNat < z.toNat := by omega
                have hnzx : ¬ z.toNat < x.toNat := by omega
                simp only [lexLe, hxy, hyx, if_false] at h1
                simp only [lexLe, hyz, hzy, if_false] at h2
                simp only [lexLe, hnxz, hnzx, if_false]
                exact ih h1 h2

theorem char_toNat_inj {c d : Char} (h : c.toNat = d.toNat) : c = d :=
  Char.ext (UInt32.ext h)

theorem lexLe_antisymm {a b : List Char} (h1 : lexLe a b = true)
    (h2 : lexLe b a = true) : a = b := by
  induction a generalizing b with
  | nil =>
    cases b with
    | nil => rfl
    | cons d ds => simp [lexLe] at h2
  | cons c cs ih =>
    cases b with
    | nil => simp [lexLe] at h1
    | cons d ds =>
      by_cases hcd : c.toNat < d.toNat
      · have hnd : ¬ d.toNat < c.toNat := by omega
        simp [lexLe, hnd, hcd] at h2
      · by_cases hdc : d.toNat < c.toNat
        · simp [lexLe, hcd, hdc] at h1
        · have hce : c = d := char_toNat_inj (by omega)
          simp only [lexLe, hcd, hdc, if_false] at h1 h2
          rw [hce, ih h1 h2]

theorem strLe_total (a b : String) : strLe a b = true ∨ strLe b a = true :=
  lexLe_total a.data b.data

theorem strLe_trans {a b c : String} (h1 : strLe a b = true)
    (h2 : strLe b c = true) : strLe a c = true :=
  lexLe_trans h1 h2

theorem strLe_antisymm {a b : String} (h1 : strLe a b = true)
    (h2 : strLe b a = true) : a = b := by
  cases a with
  | mk da =>
    cases b with
    | mk db =>
      have : da = db := lexLe_antisymm h1 h2
      rw [this]

instance : IsAntisymm String SLe := ⟨fun _ _ h1 h2 => strLe_antisymm h1 h2⟩

instance : IsTrans String SLe := ⟨fun _ _ _ h1 h2 => strLe_trans h1 h2⟩

instance : IsTotal String SLe := ⟨fun a b => strLe_total a b⟩

/-! ## Embedded `sort.Strings` -/

/-- Insert a string into a (sorted) list, keeping order by `strLe`. -/
def insertLe (a : String) : List String → List String
  | [] => [a]
  | b :: t => if strLe a b then a :: b :: t else b :: insertLe a t

/-- Embedded `sort.Strings`: ascending lexicographic sort. -/
def sortStrings (l : List String) : List String := l.foldr insertLe []

theorem perm_insertLe (a : String) (l : List String) :
    List.Perm (insertLe a l) (a :: l) := by
  induction l with
  | nil => exact List.Perm.refl _
  | cons b t ih =>
    by_cases h : strLe a b
    · simp only [insertLe, h, if_true]
      exact List.Perm.refl _
    · simp only [insertLe, h, if_false]
      exact (List.Perm.cons b ih).trans (List.Perm.swap a b t)

theorem perm_sortStrings (l : List String) : List.Perm (sortStrings l) l := by
  induction l with
  | nil => exact List.Perm.refl _
  | cons a t ih =>
    exact (perm_insertLe a (sortStrings t)).trans (List.Perm.cons a ih)

theorem sorted_insertLe {a : String} {l : List String}
    (h : List.Sorted SLe l) : List.Sorted SLe (insertLe a l) := by
  induction l with
  | nil => simp [insertLe, List.Sorted]
  | cons b t ih =>
    by_cases hab : strLe a b
    · simp only [insertLe, hab, if_true]
      refine List.Pairwise.cons ?_ h
      intro x hx
      rcases List.mem_cons.mp hx with hxb | hxt
      · subst hxb; exact hab
      · exact strLe_trans hab (List.rel_of_sorted_cons h x hxt)
    · have hba : strLe b a = true := by
        rcases strLe_total a b with h' | h'
        · exact absurd h' hab
        · exact h'
      simp only [insertLe, hab, if_false]
      refine List.Pairwise.cons ?_ (ih (List.Sorted.of_cons h))
      intro x hx
      have hx' : x ∈ a :: t := (perm_insertLe a t).mem_iff.mp hx
      rcases List.mem_cons.mp hx' with hxa | hxt
      · subst hxa; exact hba
      · exact List.rel_of_sorted_cons h x hxt

theorem sorted_sortStrings (l : List String) : List.Sorted SLe (sortStrings l) := by
  induction l with
  | nil => simp [sortStrings, List.Sorted]
  | cons a t ih => exact sorted_insertLe ih

/-- Sorting is canonical: lists with the same elements sort identically,
regardless of the order they were presented in. -/
theorem sortStrings_perm_congr {l1 l2 : List String} (h : List.Perm l1 l2) :
    sortStrings l1 = sortStrings l2 := by
  have hp : List.Perm (sortStrings l1) (sortStrings l2) :=
    ((perm_sortStrings l1).trans h).trans (perm_sortStrings l2).symm
  exact List.eq_of_perm_of_sorted hp (sorted_sortStrings l1) (sorted_sortStrings l2)

/-! ## Go maps as association lists -/

/-- Lookup in a Go map embedded as an association list. -/
def mapLookup {β : Type} : List (String × β) → String → Option β
  | [], _ => none
  | (k', v) :: t, k => if k' = k then some v else mapLookup t k

/-- String-to-string Go map (`common.Labels`, `Vars`, ...). -/
abbrev StrMap := List (String × String)

/-- The map update `r[k] = v` of Go: the new binding replaces any old one. -/
def mapWrite (m : StrMap) (k v : String) : StrMap :=
  (k, v) :: m.filter (fun p => p.1 != k)

/-- Writing every binding of `m` into `r`, in iteration order. -/
def writeAll (r : StrMap) (m : StrMap) : StrMap :=
  m.foldl (fun r' p => mapWrite r' p.1 p.2) r

/-- Source `MergeStringMaps`: starts from an empty map and writes every
binding of every argument map in order, so later maps overwrite earlier
ones on shared keys. -/
def MergeStringMaps (maps : List StrMap) : StrMap :=
  maps.foldl writeAll []

/-- First defined option (used to state which map a merged binding came from). -/
def firstSome {β : Type} : Option β → Option β → Option β
  | some v, _ => some v
  | none, b => b

theorem firstSome_none_right {β : Type} (a : Option β) : firstSome a none = a := by
  cases a <;> rfl

theorem firstSome_assoc {β : Type} (a b c : Option β) :
    firstSome (firstSome a b) c = firstSome a (firstSome b c) := by
  cases a <;> rfl

theorem mapLookup_append {β : Type} (a b : List (String × β)) (k : String) :
    mapLookup (a ++ b) k = firstSome (mapLookup a k) (mapLookup b k) := by
  induction a with
  | nil => rfl
  | cons p t ih =>
    obtain ⟨k', v⟩ := p
    by_cases h : k' = k
    · simp [mapLookup, h, firstSome]
    · simp [mapLookup, h, ih]

theorem mapLookup_eq_none_iff {β : Type} (m : List (String × β)) (k : String) :
    mapLookup m k = none ↔ k ∉ m.map Prod.fst := by
  induction m with
  | nil => simp [mapLookup]
  | cons p t ih =>
    obtain ⟨k', v⟩ := p
    by_cases h : k' = k
    · simp [mapLookup, h]
    · simp [mapLookup, h, ih, Ne.symm h]

theorem mapLookup_filter_ne (m : StrMap) (k k' : String) :
    mapLookup (m.filter (fun p => p.1 != k)) k' =
      if k = k' then none else mapLookup m k' := by
  induction m with
  | nil => simp [mapLookup]
  | cons p t ih =>
    obtain ⟨a, b⟩ := p
    by_cases hak : a = k
    · have hb : ((a, b).1 != k) = false := by simp [hak]
      rw [List.filter_cons, hb, if_neg (by simp), ih]
      by_cases hk : k = k'
      · simp [hk]
      · have : a ≠ k' := by rw [hak]; exact hk
        simp [hk, mapLookup, this]
    · have hb : ((a, b).1 != k) = true := by simp [hak]
      rw [List.filter_cons, hb, if_pos rfl]
      by_cases hak' : a = k'
      · have hkk' : k ≠ k' := fun h => hak (h ▸ hak')
        simp [mapLookup, hak', hkk']
      · simp [mapLookup, hak', ih]

theorem mapLookup_mapWrite (m : StrMap) (k v k' : String) :
    mapLookup (mapWrite m k v) k' = if k = k' then some v else mapLookup m k' := by
  unfold mapWrite
  simp only [mapLookup]
  rw [mapLookup_filter_ne]
  by_cases h : k = k' <;> simp [h]

theorem mapLookup_writeAll (r m : StrMap) (k : String) :
    mapLookup (writeAll r m) k =
      firstSome (mapLookup m.reverse k) (mapLookup r k) := by
  induction m generalizing r with
  | nil => rfl
  | cons p t ih =>
    obtain ⟨k', v⟩ := p
    have hfold : writeAll r ((k', v) :: t) = writeAll (mapWrite r k' v) t := rfl
    rw [hfold, ih, List.reverse_cons, mapLookup_append, firstSome_assoc]
    congr 1
    rw [mapLookup_mapWrite]
    by_cases h : k' = k <;> simp [mapLookup, h, firstSome]

theorem mapLookup_reverse_of_nodup {β : Type} (m : List (String × β))
    (h : (m.map Prod.fst).Nodup) (k : String) :
    mapLookup m.reverse k = mapLookup m k := by
  induction m with
  | nil => rfl
  | cons p t ih =>
    obtain ⟨k', v⟩ := p
    rw [List.reverse_cons, mapLookup_append]
    have hnd : (t.map Prod.fst).Nodup := (List.nodup_cons.mp h).2
    have hni : k' ∉ t.map Prod.fst := (List.nodup_cons.mp h).1
    rw [ih hnd]
    by_cases hk : k' = k
    · subst hk
      have : mapLookup t k' = none := (mapLookup_eq_none_iff t k').mpr hni
      simp [this, mapLookup, firstSome]
    · simp [mapLookup, hk, firstSome_none_right]

/-- Lookup in the merge of two Go maps: the second map's binding wins,
the first is the fallback. -/
theorem mapLookup_mergeTwo (m1 m2 : StrMap) (k : String)
    (h1 : (m1.map Prod.fst).Nodup) (h2 : (m2.map Prod.fst).Nodup) :
    mapLookup (MergeStringMaps [m1, m2]) k =
      firstSome (mapLookup m2 k) (mapLookup m1 k) := by
  have : MergeStringMaps [m1, m2] = writeAll (writeAll [] m1) m2 := rfl
  rw [this, mapLookup_writeAll, mapLookup_writeAll,
    mapLookup_reverse_of_nodup m1 h1, mapLookup_reverse_of_nodup m2 h2]
  simp [mapLookup, firstSome_none_right]

theorem mapLookup_perm {β : Type} {m1 m2 : List (String × β)}
    (hp : List.Perm m1 m2) (hn : (m1.map Prod.fst).Nodup) (k : String) :
    mapLookup m1 k = mapLookup m2 k := by
  induction hp with
  | nil => rfl
  | cons p hp' ih =>
    obtain ⟨k', v⟩ := p
    simp only [mapLookup]
    by_cases h : k' = k
    · simp [h]
    · simp only [h, if_false]
      exact ih (by simpa [List.nodup_cons] using (List.nodup_cons.mp hn).2)
  | swap x y l =>
    obtain ⟨kx, vx⟩ := x
    obtain ⟨ky, vy⟩ := y
    have hne : ky ≠ kx := by
      have := (List.nodup_cons.mp hn).1
      simp only [List.map_cons, List.mem_cons] at this
      intro h
      exact this (Or.inl h)
    simp only [mapLookup]
    by_cases hx : kx = k
    · have : ky ≠ k := fun h => hne (h.trans hx.symm)
      simp [hx, this]
    · by_cases hy : ky = k <;> simp [hx, hy]
  | trans h12 h23 ih1 ih2 =>
    have hn2 : _ := ((h12.map Prod.fst).nodup_iff).mp hn
    exact (ih1 hn).trans (ih2 hn2)

/-! ## Entity model (`common` package) -/

/-- String-to-string label map attached to a discovered target. -/
abbrev Labels := StrMap

/-- Modelled from the spec: `common.File` — `{Name, Path, Type, Obj}`, a named
input artifact reference plus an opaque decoded payload, embedded as a string.
The `Type` field is spelled `Ftype` because `Type` is reserved in Lean. -/
structure File where
  Name : String
  Path : String
  Ftype : String
  Obj : String
deriving DecidableEq

/-- Modelled from the spec: `common.BaseConfig` — `{Labels, Vars, Qualities,
Availability, Metrics}`, a named rule set producing derived probe definitions.
The three probe collections are embedded as lists of entry names. -/
structure BaseConfig where
  Labels : StrMap
  Vars : StrMap
  Qualities : List String
  Availability : List String
  Metrics : List String
deriving DecidableEq

/-- Modelled from the spec: `common.Object` — a discovered service bundle of
vars, files and named BaseConfigs, plus an informational metric-name list. -/
structure Object where
  Vars : StrMap
  Files : List (String × File)
  Configs : List (String × BaseConfig)
  Metrics : List String
deriving DecidableEq

/-- Source `GetStringKeys`: the keys of a map, in iteration order. -/
def GetStringKeys (arr : StrMap) : List String := arr.map Prod.fst

/-- Source `GetBaseConfigKeys`. -/
def GetBaseConfigKeys (arr : List (String × BaseConfig)) : List String :=
  arr.map Prod.fst

/-- Source `GetFileKeys`. -/
def GetFileKeys (arr : List (String × File)) : List String := arr.map Prod.fst

/-- Source `GetLabelsKeys`. -/
def GetLabelsKeys (arr : List (String × Labels)) : List String := arr.map Prod.fst

/-! ## Small Go string helpers -/

/-- Go `strings.TrimSpace`. -/
def TrimSpace (s : String) : String :=
  ⟨((s.data.dropWhile Char.isWhitespace).reverse.dropWhile Char.isWhitespace).reverse⟩

/-- Split a char list at every occurrence of `sep` (Go `strings.Split` with a
one-character separator). -/
def splitChar (sep : Char) : List Char → List (List Char)
  | [] => [[]]
  | c :: t =>
    let r := splitChar sep t
    if c = sep then [] :: r
    else
      match r with
      | [] => [[c]]
      | h :: t' => (c :: h) :: t'

/-- Go `strings.Split(s, ",")`. -/
def goSplitComma (s : String) : List String :=
  (splitChar ',' s.data).map (fun l => ⟨l⟩)

/-! ## Input records and options -/

/-- File reference carried inside a `prometheus_http` input record. -/
structure InputPrometheusHttpFile where
  Name : String
  Path : String
  Ftype : String
deriving DecidableEq

/-- Modelled from the spec: one derived metric entry of a `prometheus_http`
record (quality window, availability check or raw passthrough), carrying the
labels taken as-is from its BaseConfig and the merged vars. -/
structure InputPrometheusHttpMetric where
  Name : String
  Labels : StrMap
  Vars : StrMap
deriving DecidableEq

/-- The `prometheus_http` input record (`telegraf/common.go`). The source
field `Prefix` is spelled `Prefx` here. -/
structure InputPrometheusHttp where
  Name : String
  URL : String
  User : String
  Password : String
  Version : String
  Params : String
  Interval : String
  Timeout : String
  Duration : String
  Prefx : String
  Tags : StrMap
  SkipEmptyTags : Bool
  File : List InputPrometheusHttpFile
  Metric : List InputPrometheusHttpMetric
  Include : List String
deriving DecidableEq

/-- The `dns_query` input record. -/
structure InputDNSQuery where
  Interval : String
  Servers : List String
  Domains : List String
  Network : String
  RecordType : String
  Port : Nat
  Timeout : Nat
  Include : List String
  Tags : StrMap
deriving DecidableEq

/-- The `http_response` input record. -/
structure InputHTTPResponse where
  Interval : String
  URLs : List String
  Timeout : String
  Method : String
  FollowRedirects : Bool
  StringMatch : String
  StatusCode : Nat
  InsecureSkipVerify : Bool
  Include : List String
  Tags : StrMap
deriving DecidableEq

/-- The `net_response` input record. -/
structure InputNetResponse where
  Interval : String
  Address : String
  Protocol : String
  Timeout : String
  ReadTimeout : String
  Send : String
  Expect : String
  Include : List String
  Tags : StrMap
deriving DecidableEq

/-- The `x509_cert` input record. -/
structure InputX509Cert where
  Interval : String
  Sources : List String
  Timeout : String
  ServerName : String
  ExcludeRootCerts : Bool
  TLSCA : String
  TLSCert : String
  TLSKey : String
  TLSServerName : String
  UseProxy : Bool
  ProxyURL : String
  Include : List String
  Tags : StrMap
deriving DecidableEq

/-- Options of the metrics builder (fields as configured in `cmd/root.go`;
source field `Prefix` spelled `Prefx`). -/
structure InputPrometheusHttpOptions where
  Interval : String
  URL : String
  User : String
  Password : String
  Version : String
  Params : String
  Duration : String
  Timeout : String
  Prefx : String
  QualityName : String
  QualityRange : String
  QualityEvery : String
  QualityPoints : Nat
  QualityQuery : String
  AvailabilityName : String
  MetricName : String
  DefaultTags : List String
  VarFormat : String
deriving DecidableEq

/-- Options of the DNS builder. -/
structure InputDNSQueryOptions where
  Interval : String
  Servers : String
  Network : String
  RecordType : String
  Port : Nat
  Timeout : Nat
  Tags : List String
deriving DecidableEq

/-- Options of the HTTP-response builder. -/
structure InputHTTPResponseOptions where
  Interval : String
  URLs : String
  Path : String
  Method : String
  FollowRedirects : Bool
  StringMatch : String
  StatusCode : Nat
  Timeout : String
  Tags : List String
deriving DecidableEq

/-- Options of the net-response builder. -/
structure InputNetResponseOptions where
  Interval : String
  Timeout : String
  ReadTimeout : String
  Send : String
  Expect : String
  Tags : List String
deriving DecidableEq

/-- Options of the X.509 certificate builder. -/
structure InputX509CertOptions where
  Interval : String
  Timeout : String
  ServerName : String
  ExcludeRootCerts : Bool
  TLSCA : String
  TLSCert : String
  TLSKey : String
  TLSServerName : String
  UseProxy : Bool
  ProxyURL : String
  Tags : List String
deriving DecidableEq

/-! ## Include-tag composition -/

/-- De-duplicating append (Go `utils.Contains` guard before `append`). -/
def appendUniques (acc : List String) : List String → List String
  | [] => acc
  | x :: t => if acc.contains x then appendUniques acc t else appendUniques (acc ++ [x]) t

/-- Modelled from the spec: the record method `updateIncludeTags` — extends
the record's Include list with the union of the given default-tag names and
the keys of the record's current `Tags` map, de-duplicated. The caller sorts
the result afterwards, exactly as the source does. -/
def updateIncludeTags (inc : List String) (tags : List String)
    (recTags : StrMap) : List String :=
  appendUniques inc (tags ++ recTags.map Prod.fst)

/-- De-duplication of a tag list, preserving first occurrences. -/
def dedupTags (tags : List String) : List String := appendUniques [] tags

/-! ## Serialization container -/

/-- The `Inputs` document section (`telegraf/common.go`). -/
structure Inputs where
  PrometheusHttp : List InputPrometheusHttp
  DNSQuery : List InputDNSQuery
  HTTPResponse : List InputHTTPResponse
  NetResponse : List InputNetResponse
  X509Cert : List InputX509Cert
deriving DecidableEq

/-- The serialization container (`telegraf.Config`); the observability handle
of the source is not part of the serialized state and is omitted. -/
structure Config where
  Inputs : Inputs
deriving DecidableEq

/-- A container with no records. -/
def emptyConfig : Config := ⟨⟨[], [], [], [], []⟩⟩

/-- Join strings with a separator byte. -/
def joinBar (xs : List String) : String := xs.foldl (fun a s => a ++ "|" ++ s) ""

/-- Render a label map. -/
def renderStrMap (m : StrMap) : String := joinBar (m.map (fun p => p.1 ++ "=" ++ p.2))

/-- Render one `prometheus_http` record. -/
def renderPrometheusHttp (r : InputPrometheusHttp) : String :=
  joinBar ([r.Name, r.URL, r.User, r.Password, r.Version, r.Params, r.Interval,
    r.Timeout, r.Duration, r.Prefx, renderStrMap r.Tags] ++ r.Include
    ++ r.File.map (fun f => f.Name ++ f.Path ++ f.Ftype)
    ++ r.Metric.map (fun m => m.Name ++ renderStrMap m.Labels ++ renderStrMap m.Vars))

/-- Render one `dns_query` record. -/
def renderDNSQuery (r : InputDNSQuery) : String :=
  joinBar ([r.Interval, r.Network, r.RecordType, toString r.Port,
    toString r.Timeout, renderStrMap r.Tags] ++ r.Servers ++ r.Domains ++ r.Include)

/-- Render one `http_response` record. -/
def renderHTTPResponse (r : InputHTTPResponse) : String :=
  joinBar ([r.Interval, r.Timeout, r.Method, toString r.FollowRedirects,
    r.StringMatch, toString r.StatusCode, toString r.InsecureSkipVerify,
    renderStrMap r.Tags] ++ r.URLs ++ r.Include)

/-- Render one `net_response` record. -/
def renderNetResponse (r : InputNetResponse) : String :=
  joinBar ([r.Interval, r.Address, r.Protocol, r.Timeout, r.ReadTimeout,
    r.Send, r.Expect, renderStrMap r.Tags] ++ r.Include)

/-- Render one `x509_cert` record. -/
def renderX509Cert (r : InputX509Cert) : String :=
  joinBar ([r.Interval, r.Timeout, r.ServerName, toString r.ExcludeRootCerts,
    r.TLSCA, r.TLSCert, r.TLSKey, r.TLSServerName, toString r.UseProxy,
    r.ProxyURL, renderStrMap r.Tags] ++ r.Sources ++ r.Include)

/-- Render a document section, omitted (empty) when its record list is empty. -/
def renderSection (name : String) (body : List String) : String :=
  if body.isEmpty then "" else name ++ joinBar body

/-- Modelled from the spec: the external TOML encoder, embedded as a
deterministic rendering of the container that omits empty record lists.
Claims constrain only that rendering is a pure function of the container,
never the concrete byte syntax. -/
def encodeConfig (tc : Config) : String :=
  renderSection "prometheus_http" (tc.Inputs.PrometheusHttp.map renderPrometheusHttp)
  ++ renderSection "dns_query" (tc.Inputs.DNSQuery.map renderDNSQuery)
  ++ renderSection "http_response" (tc.Inputs.HTTPResponse.map renderHTTPResponse)
  ++ renderSection "net_response" (tc.Inputs.NetResponse.map renderNetResponse)
  ++ renderSection "x509_cert" (tc.Inputs.X509Cert.map renderX509Cert)

/-! ## Input builders (`telegraf/common.go`) -/

/-- Result of a builder: updated container, returned byte slice (`none` for a
nil slice) and returned error. -/
abbrev GenResult := Config × Option String × Option String

/-- Server-list preparation of `GenerateInputDNSQueryBytes`: split the
configured server string on commas, trim each entry, de-duplicate in
first-seen order, then sort. -/
def dnsServers (serversOpt : String) : List String :=
  sortStrings ((goSplitComma serversOpt).foldl
    (fun servers s0 =>
      let s := TrimSpace s0
      if servers.contains s then servers else servers ++ [s]) [])

/-- One iteration of the DNS builder loop, in source statement order: the
record is filled from the options, `updateIncludeTags` runs and `Include` is
sorted while `Tags` is still empty, and only then is `Tags` assigned. -/
def mkDNSRecord (opts : InputDNSQueryOptions) (servers : List String)
    (domains : List (String × Labels)) (k : String) : InputDNSQuery :=
  let base : InputDNSQuery :=
    { Interval := opts.Interval, Servers := servers, Domains := [k],
      Network := opts.Network, RecordType := opts.RecordType, Port := opts.Port,
      Timeout := opts.Timeout, Include := [], Tags := [] }
  let withInclude :=
    { base with Include := sortStrings (updateIncludeTags base.Include opts.Tags base.Tags) }
  { withInclude with Tags := (mapLookup domains k).getD [] }

/-- Source `GenerateInputDNSQueryBytes`. -/
def Config.GenerateInputDNSQueryBytes (tc : Config) (opts : InputDNSQueryOptions)
    (domains : List (String × Labels)) : GenResult :=
  let servers := dnsServers opts.Servers
  let keys := sortStrings (GetLabelsKeys domains)
  let recs := keys.map (mkDNSRecord opts servers domains)
  let tc' := { tc with Inputs.DNSQuery := tc.Inputs.DNSQuery ++ recs }
  (tc', some (encodeConfig tc'), none)

/-- One iteration of the HTTP-response builder loop, in source statement
order (`InsecureSkipVerify` is set to the literal `true`). -/
def mkHTTPRecord (opts : InputHTTPResponseOptions)
    (urls : List (String × Labels)) (k : String) : InputHTTPResponse :=
  let base : InputHTTPResponse :=
    { Interval := opts.Interval, URLs := [k], Timeout := opts.Timeout,
      Method := opts.Method, FollowRedirects := opts.FollowRedirects,
      StringMatch := opts.StringMatch, StatusCode := opts.StatusCode,
      InsecureSkipVerify := true, Include := [], Tags := [] }
  let withInclude :=
    { base with Include := sortStrings (updateIncludeTags base.Include opts.Tags base.Tags) }
  { withInclude with Tags := (mapLookup urls k).getD [] }

/-- Source `GenerateInputHTTPResponseBytes`. -/
def Config.GenerateInputHTTPResponseBytes (tc : Config)
    (opts : InputHTTPResponseOptions) (urls : List (String × Labels)) : GenResult :=
  let keys := sortStrings (GetLabelsKeys urls)
  let recs := keys.map (mkHTTPRecord opts urls)
  let tc' := { tc with Inputs.HTTPResponse := tc.Inputs.HTTPResponse ++ recs }
  (tc', some (encodeConfig tc'), none)

/-- One iteration of the net-response builder loop, in source statement order. -/
def mkNETRecord (opts : InputNetResponseOptions)
    (addresses : List (String × Labels)) (protocol : String) (k : String) :
    InputNetResponse :=
  let base : InputNetResponse :=
    { Interval := opts.Interval, Address := k, Protocol := protocol,
      Timeout := opts.Timeout, ReadTimeout := opts.ReadTimeout,
      Send := opts.Send, Expect := opts.Expect, Include := [], Tags := [] }
  let withInclude :=
    { base with Include := sortStrings (updateIncludeTags base.Include opts.Tags base.Tags) }
  { withInclude with Tags := (mapLookup addresses k).getD [] }

/-- Source `GenerateInputNETResponseBytes`. -/
def Config.GenerateInputNETResponseBytes (tc : Config)
    (opts : InputNetResponseOptions) (addresses : List (String × Labels))
    (protocol : String) : GenResult :=
  let keys := sortStrings (GetLabelsKeys addresses)
  let recs := keys.map (mkNETRecord opts addresses protocol)
  let tc' := { tc with Inputs.NetResponse := tc.Inputs.NetResponse ++ recs }
  (tc', some (encodeConfig tc'), none)

/-- One iteration of the X.509 builder loop, in source statement order. -/
def mkX509Record (opts : InputX509CertOptions)
    (addresses : List (String × Labels)) (k : String) : InputX509Cert :=
  let base : InputX509Cert :=
    { Interval := opts.Interval, Sources := [k], Timeout := opts.Timeout,
      ServerName := opts.ServerName, ExcludeRootCerts := opts.ExcludeRootCerts,
      TLSCA := opts.TLSCA, TLSCert := opts.TLSCert, TLSKey := opts.TLSKey,
      TLSServerName := opts.TLSServerName, UseProxy := opts.UseProxy,
      ProxyURL := opts.ProxyURL, Include := [], Tags := [] }
  let withInclude :=
    { base with Include := sortStrings (updateIncludeTags base.Include opts.Tags base.Tags) }
  { withInclude with Tags := (mapLookup addresses k).getD [] }

/-- Source `GenerateInputX509CertBytes`. -/
def Config.GenerateInputX509CertBytes (tc : Config)
    (opts : InputX509CertOptions) (addresses : List (String × Labels)) : GenResult :=
  let keys := sortStrings (GetLabelsKeys addresses)
  let recs := keys.map (mkX509Record opts addresses)
  let tc' := { tc with Inputs.X509Cert := tc.Inputs.X509Cert ++ recs }
  (tc', some (encodeConfig tc'), none)

/-- Modelled from the spec: `buildQualities` — appends one quality-window
metric entry per element of the BaseConfig's Qualities, each carrying the
labels passed in (taken as-is from the BaseConfig) and the merged vars. -/
def InputPrometheusHttp.buildQualities (input : InputPrometheusHttp)
    (_s : Object) (qualities : List String) (_labelsTpl : String)
    (_opts : InputPrometheusHttpOptions) (labels vars : StrMap)
    (_fl : List (String × String)) (_persistMetrics : Bool) : InputPrometheusHttp :=
  { input with Metric := input.Metric
      ++ qualities.map (fun q => { Name := q, Labels := labels, Vars := vars }) }

/-- Modelled from the spec: `buildAvailability` — appends one availability
metric entry per element of the BaseConfig's Availability list. -/
def InputPrometheusHttp.buildAvailability (input : InputPrometheusHttp)
    (_s : Object) (availability : List String) (_labelsTpl : String)
    (_opts : InputPrometheusHttpOptions) (labels vars : StrMap)
    (_fl : List (String × String)) (_persistMetrics : Bool) : InputPrometheusHttp :=
  { input with Metric := input.Metric
      ++ availability.map (fun a => { Name := a, Labels := labels, Vars := vars }) }

/-- Modelled from the spec: `buildMetrics` — appends one raw passthrough
metric entry per element of the BaseConfig's Metrics list. -/
def InputPrometheusHttp.buildMetrics (input : InputPrometheusHttp)
    (_s : Object) (metrics : List String) (_labelsTpl : String)
    (_opts : InputPrometheusHttpOptions) (labels vars : StrMap)
    (_fl : List (String × String)) (_persistMetrics : Bool) : InputPrometheusHttp :=
  { input with Metric := input.Metric
      ++ metrics.map (fun m => { Name := m, Labels := labels, Vars := vars }) }

/-- The body of the per-BaseConfig loop of `GenerateInputPrometheusHttpBytes`:
the BaseConfig's own labels are used as-is, while its vars are merged with the
Object's vars (`MergeStringMaps(c.Vars, s.Vars)`). -/
def processBaseConfig (s : Object) (labelsTpl : String)
    (opts : InputPrometheusHttpOptions) (fl : List (String × String))
    (persistMetrics : Bool) (input : InputPrometheusHttp) (k : String) :
    InputPrometheusHttp :=
  let c := (mapLookup s.Configs k).getD ⟨[], [], [], [], []⟩
  let labels := c.Labels
  let vars := MergeStringMaps [c.Vars, s.Vars]
  ((input.buildQualities s c.Qualities labelsTpl opts labels vars fl
      persistMetrics).buildAvailability s c.Availability labelsTpl opts labels
      vars fl persistMetrics).buildMetrics s c.Metrics labelsTpl opts labels
      vars fl persistMetrics

/-- The body of the file loop of `GenerateInputPrometheusHttpBytes`: append
the file reference to the record and the decoded payload to the `fl` map. -/
def fileStep (s : Object) (acc : InputPrometheusHttp × List (String × String))
    (k : String) : InputPrometheusHttp × List (String × String) :=
  let v := (mapLookup s.Files k).getD ⟨"", "", "", ""⟩
  ({ acc.1 with File := acc.1.File ++ [⟨k, v.Path, v.Ftype⟩] },
    acc.2 ++ [(k, v.Obj)])

/-- The record state of `GenerateInputPrometheusHttpBytes` after the file
loop and the per-BaseConfig loop: the record starts from the options, file
references are resolved in sorted key order (also filling the `fl` payload
map), then every BaseConfig is processed in sorted key order. -/
def promInput2 (s : Object) (labelsTpl : String)
    (opts : InputPrometheusHttpOptions) (name : String)
    (persistMetrics : Bool) : InputPrometheusHttp :=
  let input0 : InputPrometheusHttp :=
    { Name := name, URL := opts.URL, User := opts.User,
      Password := opts.Password, Version := opts.Version,
      Params := opts.Params, Interval := opts.Interval,
      Timeout := opts.Timeout, Duration := opts.Duration, Prefx := opts.Prefx,
      Tags := [], SkipEmptyTags := true, File := [], Metric := [], Include := [] }
  let fkeys := sortStrings (GetFileKeys s.Files)
  let fstep := fkeys.foldl (fileStep s) (input0, [])
  let keys := sortStrings (GetBaseConfigKeys s.Configs)
  keys.foldl (processBaseConfig s labelsTpl opts fstep.2 persistMetrics) fstep.1

/-- The record of `GenerateInputPrometheusHttpBytes` as finalized on the
success path: Include is extended by the default tags and sorted. -/
def promInput3 (s : Object) (labelsTpl : String)
    (opts : InputPrometheusHttpOptions) (name : String)
    (persistMetrics : Bool) : InputPrometheusHttp :=
  let input2 := promInput2 s labelsTpl opts name persistMetrics
  { input2 with
    Include := sortStrings (updateIncludeTags input2.Include opts.DefaultTags input2.Tags) }

/-- Source `GenerateInputPrometheusHttpBytes`: the builder errors exactly
when the accumulated `Metric` list ends up empty, and only on success is the
record appended to the container and the container rendered. -/
def Config.GenerateInputPrometheusHttpBytes (tc : Config) (s : Object)
    (labelsTpl : String) (opts : InputPrometheusHttpOptions) (name : String)
    (persistMetrics : Bool) : GenResult :=
  if (promInput2 s labelsTpl opts name persistMetrics).Metric.isEmpty then
    (tc, none, some "Metrics are not found.")
  else
    let tc' := { tc with Inputs.PrometheusHttp := tc.Inputs.PrometheusHttp
      ++ [promInput3 s labelsTpl opts name persistMetrics] }
    (tc', some (encodeConfig tc'), none)

/-! ## Persistence gate -/

/-- The filesystem, observed as path-to-content bindings. -/
abbrev FS := List (String × String)

/-- Observable effects of the persistence layer and dispatcher. -/
inductive Event where
  | debug (msg : String)
  | errlog (msg : String)
  | wrote (path : String)
deriving DecidableEq

/-- Modelled from the spec: `common.FileWriteWithCheckSum` — in checksum mode
the fingerprint of the new content is compared with the existing file's and
the write is skipped when they match (returning `exists = true`); otherwise,
and always when checksum mode is off, the file is written and `exists =
false` is returned. MD5 fingerprint comparison is embedded as content
comparison (equal content has equal MD5); directory creation and I/O errors
are outside the model. -/
def FileWriteWithCheckSum (fs : FS) (path bs : String) (checksum : Bool) :
    FS × Bool :=
  if checksum then
    match mapLookup fs path with
    | some content =>
      if content = bs then (fs, true) else (mapWrite fs path bs, false)
    | none => (mapWrite fs path bs, false)
  else (mapWrite fs path bs, false)

/-- Modelled from the spec: `utils.IsEmpty` at this interface boundary —
true exactly for the empty string. -/
def utilsIsEmpty (s : String) : Bool := s.isEmpty

/-- Source `CreateWithTemplateIfCheckSumIsDifferent`: skip on a nil or empty
byte slice, append the template after a newline when one is supplied, then
hand the merged content to the checksum/compare-and-write step. -/
def Config.CreateWithTemplateIfCheckSumIsDifferent (_tc : Config)
    (name template conf : String) (checksum : Bool) (bs : Option String)
    (fs : FS) : FS × List Event :=
  match bs with
  | none => (fs, [.debug (name ++ ": No query config")])
  | some s =>
    if s.isEmpty then (fs, [.debug (name ++ ": No query config")])
    else
      let merged := if utilsIsEmpty template then s else s ++ "\n" ++ template
      let r := FileWriteWithCheckSum fs conf merged checksum
      if r.2 then (r.1, [.debug (name ++ ": File " ++ conf ++ " exists, skipped")])
      else (r.1, [.debug (name ++ ": File " ++ conf ++ " created or replaced"),
        .wrote conf])

/-- Source `CreateIfCheckSumIsDifferent`: delegation with an empty template. -/
def Config.CreateIfCheckSumIsDifferent (tc : Config) (name conf : String)
    (checksum : Bool) (bs : Option String) (fs : FS) : FS × List Event :=
  tc.CreateWithTemplateIfCheckSumIsDifferent name "" conf checksum bs fs

/-! ## Sink dispatcher (Telegraf sink) -/

/-- Modelled from the spec: `discovery.SignalOptions`, restricted to the
resolved connection options the dispatcher inherits from (URL, user,
password); its other fields never reach this core. -/
structure SignalOptions where
  URL : String
  User : String
  Password : String
deriving DecidableEq

/-- `TelegrafSignalOptions`; `Opts` stands for the embedded
`InputPrometheusHttpOptions`. -/
structure TelegrafSignalOptions where
  Opts : InputPrometheusHttpOptions
  Template : String
  Tags : String
deriving DecidableEq

/-- `TelegrafCertOptions`. -/
structure TelegrafCertOptions where
  Opts : InputX509CertOptions
  Template : String
  Conf : String
deriving DecidableEq

/-- `TelegrafDNSOptions`. -/
structure TelegrafDNSOptions where
  Opts : InputDNSQueryOptions
  Template : String
  Conf : String
deriving DecidableEq

/-- `TelegrafHTTPOptions`. -/
structure TelegrafHTTPOptions where
  Opts : InputHTTPResponseOptions
  Template : String
  Conf : String
deriving DecidableEq

/-- `TelegrafTCPOptions`. -/
structure TelegrafTCPOptions where
  Opts : InputNetResponseOptions
  Template : String
  Conf : String
deriving DecidableEq

/-- `TelegrafOptions`. -/
structure TelegrafOptions where
  Pass : List String
  Signal : TelegrafSignalOptions
  Cert : TelegrafCertOptions
  DNS : TelegrafDNSOptions
  HTTP : TelegrafHTTPOptions
  TCP : TelegrafTCPOptions
  Checksum : Bool
deriving DecidableEq

/-- The Telegraf sink (logger and observability handles omitted; logging is
captured in the event trace instead). -/
structure Telegraf where
  options : TelegrafOptions
deriving DecidableEq

/-- A discovery at the interface this core consumes (`Name()` / `Source()`). -/
structure Discovery where
  Name : String
  Source : String
deriving DecidableEq

/-- One value of the incoming sync map: an Object for Signal, a Labels value
for the other discovery types. -/
inductive SinkValue where
  | obj (o : Object)
  | labels (l : Labels)
deriving DecidableEq

/-- The incoming discovery result map. -/
abbrev SinkMap := List (String × SinkValue)

/-- Modelled from the spec: `common.ConvertSyncMapToServices` — the service
(Object) entries of the result map. -/
def ConvertSyncMapToServices (m : SinkMap) : List (String × Object) :=
  m.filterMap (fun p => match p.2 with
    | .obj o => some (p.1, o)
    | .labels _ => none)

/-- Modelled from the spec: `common.ConvertSyncMapToLabelsMap` — the Labels
entries of the result map. -/
def ConvertSyncMapToLabelsMap (m : SinkMap) : List (String × Labels) :=
  m.filterMap (fun p => match p.2 with
    | .obj _ => none
    | .labels l => some (p.1, l))

/-- A discovery result (`common.SinkObject`): the result map plus the
discovery's own resolved options used for fallback inheritance. `none`
models an options value whose type assertion fails. -/
structure SinkObject where
  Map : SinkMap
  Options : Option SignalOptions
deriving DecidableEq

/-- The templating collaborator (`common.Render`), treated per the spec as a
pure `render(template, variables)` capability and passed in explicitly. -/
abbrev RenderFn := String → StrMap → String

/-- Fallback inheritance of `processSignal`: unset connection options inherit
from the discovery's own resolved options. -/
def inheritSignal (sig : TelegrafSignalOptions) (opts : SignalOptions) :
    TelegrafSignalOptions :=
  let o1 := if utilsIsEmpty sig.Opts.URL then { sig.Opts with URL := opts.URL } else sig.Opts
  let o2 := if utilsIsEmpty o1.User then { o1 with User := opts.User } else o1
  let o3 := if utilsIsEmpty o2.Password then { o2 with Password := opts.Password } else o2
  { sig with Opts := o3 }

/-- One iteration of the `processSignal` service loop: render the per-service
output path from the service's vars, build the metrics record over a fresh
container, and on builder error log the error and skip persistence for this
service; otherwise hand the bytes to `CreateIfCheckSumIsDifferent`. -/
def processSignalStep (sig : TelegrafSignalOptions) (checksum : Bool)
    (render : RenderFn) (source : String) (acc : FS × List Event)
    (kv : String × Object) : FS × List Event :=
  let fs := acc.1
  let evs := acc.2 ++
    [.debug (source ++ ": Processing service: " ++ kv.1),
     .debug (source ++ ": Found metrics")]
  let path := render sig.Template kv.2.Vars
  let r := emptyConfig.GenerateInputPrometheusHttpBytes kv.2 sig.Tags sig.Opts path false
  match r.2.2 with
  | some e => (fs, evs ++ [.errlog (source ++ ": Service " ++ kv.1 ++ " error: " ++ e)])
  | none =>
    let cr := r.1.CreateIfCheckSumIsDifferent source path checksum r.2.1 fs
    (cr.1, evs ++ cr.2)

/-- Source `processSignal`: cast the options (error when absent), inherit
unset connection options, then process every discovered service. -/
def Telegraf.processSignal (t : Telegraf) (render : RenderFn) (d : Discovery)
    (sm : SinkMap) (so : Option SignalOptions) (fs : FS) :
    FS × List Event × Option String :=
  match so with
  | none => (fs, [], some "no options")
  | some opts =>
    let sig := inheritSignal t.options.Signal opts
    let m := ConvertSyncMapToServices sm
    let r := m.foldl (processSignalStep sig t.options.Checksum render d.Source) (fs, [])
    (r.1, r.2, none)

/-- Source `processCert`. -/
def Telegraf.processCert (t : Telegraf) (d : Discovery) (sm : SinkMap)
    (fs : FS) : FS × List Event × Option String :=
  let m := ConvertSyncMapToLabelsMap sm
  let r := emptyConfig.GenerateInputX509CertBytes t.options.Cert.Opts m
  match r.2.2 with
  | some e => (fs, [], some e)
  | none =>
    let cr := r.1.CreateWithTemplateIfCheckSumIsDifferent d.Source
      t.options.Cert.Template t.options.Cert.Conf t.options.Checksum r.2.1 fs
    (cr.1, cr.2, none)

/-- Source `processDNS`. -/
def Telegraf.processDNS (t : Telegraf) (d : Discovery) (sm : SinkMap)
    (fs : FS) : FS × List Event × Option String :=
  let m := ConvertSyncMapToLabelsMap sm
  let r := emptyConfig.GenerateInputDNSQueryBytes t.options.DNS.Opts m
  match r.2.2 with
  | some e => (fs, [], some e)
  | none =>
    let cr := r.1.CreateWithTemplateIfCheckSumIsDifferent d.Source
      t.options.DNS.Template t.options.DNS.Conf t.options.Checksum r.2.1 fs
    (cr.1, cr.2, none)

/-- Source `processHTTP`. -/
def Telegraf.processHTTP (t : Telegraf) (d : Discovery) (sm : SinkMap)
    (fs : FS) : FS × List Event × Option String :=
  let m := ConvertSyncMapToLabelsMap sm
  let r := emptyConfig.GenerateInputHTTPResponseBytes t.options.HTTP.Opts m
  match r.2.2 with
  | some e => (fs, [], some e)
  | none =>
    let cr := r.1.CreateWithTemplateIfCheckSumIsDifferent d.Source
      t.options.HTTP.Template t.options.HTTP.Conf t.options.Checksum r.2.1 fs
    (cr.1, cr.2, none)

/-- Source `processTCP`: the net-response builder is invoked with the
explicit protocol tag `"tcp"`. -/
def Telegraf.processTCP (t : Telegraf) (d : Discovery) (sm : SinkMap)
    (fs : FS) : FS × List Event × Option String :=
  let m := ConvertSyncMapToLabelsMap sm
  let r := emptyConfig.GenerateInputNETResponseBytes t.options.TCP.Opts m "tcp"
  match r.2.2 with
  | some e => (fs, [], some e)
  | none =>
    let cr := r.1.CreateWithTemplateIfCheckSumIsDifferent d.Source
      t.options.TCP.Template t.options.TCP.Conf t.options.Checksum r.2.1 fs
    (cr.1, cr.2, none)

/-- Attach the branch error, if any, to the event trace (the `err != nil`
tail of `Process`). -/
def finishProcess (d : Discovery) (dname : String) (header : Event)
    (r : FS × List Event × Option String) : FS × List Event :=
  match r.2.2 with
  | some e =>
    (r.1, header :: r.2.1 ++ [.errlog (d.Source ++ ": " ++ dname ++ " query error: " ++ e)])
  | none => (r.1, header :: r.2.1)

/-- Source `Process`: route on the discovery-type name; an unknown name only
logs and returns. -/
def Telegraf.Process (t : Telegraf) (render : RenderFn) (d : Discovery)
    (so : SinkObject) (fs : FS) : FS × List Event :=
  let dname := d.Name
  let m := so.Map
  let header := Event.debug ("Telegraf has to process " ++ toString m.length
    ++ " objects from " ++ dname ++ "...")
  if dname = "Signal" then
    finishProcess d dname header (t.processSignal render d m so.Options fs)
  else if dname = "Cert" then
    finishProcess d dname header (t.processCert d m fs)
  else if dname = "DNS" then
    finishProcess d dname header (t.processDNS d m fs)
  else if dname = "HTTP" then
    finishProcess d dname header (t.processHTTP d m fs)
  else if dname = "TCP" then
    finishProcess d dname header (t.processTCP d m fs)
  else
    (fs, [header, .debug ("Telegraf has no support for " ++ dname)])

/-! ## Supporting lemmas -/

theorem mapLookup_mem {β : Type} {m : List (String × β)} {k : String} {v : β}
    (h : mapLookup m k = some v) : (k, v) ∈ m := by
  induction m with
  | nil => simp [mapLookup] at h
  | cons p t ih =>
    obtain ⟨k', v'⟩ := p
    by_cases hk : k' = k
    · subst hk
      have h2 : mapLookup ((k', v') :: t) k' = some v' := if_pos rfl
      rw [h] at h2
      have hv : v = v' := Option.some_inj.mp h2
      subst hv
      exact List.mem_cons_self _ _
    · simp only [mapLookup, hk, if_false] at h
      exact List.mem_cons_of_mem _ (ih h)

theorem mapLookup_isSome_of_mem {β : Type} {m : List (String × β)} {k : String}
    (h : k ∈ m.map Prod.fst) : ∃ v, mapLookup m k = some v := by
  induction m with
  | nil => simp at h
  | cons p t ih =>
    obtain ⟨k', v'⟩ := p
    by_cases hk : k' = k
    · exact ⟨v', by simp [mapLookup, hk]⟩
    · have : k ∈ t.map Prod.fst := by
        simp only [List.map_cons, List.mem_cons] at h
        rcases h with h | h
        · exact absurd h.symm hk
        · exact h
      obtain ⟨v, hv⟩ := ih this
      exact ⟨v, by simp [mapLookup, hk, hv]⟩

theorem mapLookup_nodup_eq {β : Type} {m : List (String × β)} {k : String} {v : β}
    (hn : (m.map Prod.fst).Nodup) (h : (k, v) ∈ m) : mapLookup m k = some v := by
  induction m with
  | nil => simp at h
  | cons p t ih =>
    obtain ⟨k', v'⟩ := p
    rcases List.mem_cons.mp h with he | ht
    · obtain ⟨h1, h2⟩ := Prod.mk.injEq .. ▸ he
      simp [mapLookup, h1.symm, h2]
    · by_cases hk : k' = k
      · exfalso
        have hkeys : k ∈ t.map Prod.fst :=
          List.mem_map.mpr ⟨(k, v), ht, rfl⟩
        have := (List.nodup_cons.mp hn).1
        exact this (hk ▸ hkeys)
      · simp only [mapLookup, hk, if_false]
        exact ih (List.nodup_cons.mp hn).2 ht

/-- The metric entries contributed by the BaseConfig stored under key `k`. -/
def configContribution (s : Object) (k : String) : List InputPrometheusHttpMetric :=
  let c := (mapLookup s.Configs k).getD ⟨[], [], [], [], []⟩
  (c.Qualities ++ c.Availability ++ c.Metrics).map
    (fun n => ⟨n, c.Labels, MergeStringMaps [c.Vars, s.Vars]⟩)

theorem processBaseConfig_Metric (s : Object) (ltpl : String)
    (opts : InputPrometheusHttpOptions) (fl : List (String × String)) (pm : Bool)
    (input : InputPrometheusHttp) (k : String) :
    (processBaseConfig s ltpl opts fl pm input k).Metric =
      input.Metric ++ configContribution s k := by
  unfold processBaseConfig configContribution InputPrometheusHttp.buildQualities
    InputPrometheusHttp.buildAvailability InputPrometheusHttp.buildMetrics
  simp [List.map_append, List.append_assoc]

theorem processBaseConfig_Tags (s : Object) (ltpl : String)
    (opts : InputPrometheusHttpOptions) (fl : List (String × String)) (pm : Bool)
    (input : InputPrometheusHttp) (k : String) :
    (processBaseConfig s ltpl opts fl pm input k).Tags = input.Tags := rfl

theorem processBaseConfig_Include (s : Object) (ltpl : String)
    (opts : InputPrometheusHttpOptions) (fl : List (String × String)) (pm : Bool)
    (input : InputPrometheusHttp) (k : String) :
    (processBaseConfig s ltpl opts fl pm input k).Include = input.Include := rfl

theorem foldl_processBaseConfig_Metric (s : Object) (ltpl : String)
    (opts : InputPrometheusHttpOptions) (fl : List (String × String)) (pm : Bool)
    (K : List String) :
    ∀ (input : InputPrometheusHttp),
    (K.foldl (processBaseConfig s ltpl opts fl pm) input).Metric =
      input.Metric ++ (K.map (configContribution s)).flatten := by
  induction K with
  | nil => intro input; simp
  | cons k t ih =>
    intro input
    simp only [List.foldl_cons, List.map_cons, List.flatten_cons]
    rw [ih, processBaseConfig_Metric, List.append_assoc]

theorem foldl_processBaseConfig_Tags (s : Object) (ltpl : String)
    (opts : InputPrometheusHttpOptions) (fl : List (String × String)) (pm : Bool)
    (K : List String) :
    ∀ (input : InputPrometheusHttp),
    (K.foldl (processBaseConfig s ltpl opts fl pm) input).Tags = input.Tags := by
  induction K with
  | nil => intro input; rfl
  | cons k t ih =>
    intro input
    simp only [List.foldl_cons]
    rw [ih, processBaseConfig_Tags]

theorem foldl_processBaseConfig_Include (s : Object) (ltpl : String)
    (opts : InputPrometheusHttpOptions) (fl : List (String × String)) (pm : Bool)
    (K : List String) :
    ∀ (input : InputPrometheusHttp),
    (K.foldl (processBaseConfig s ltpl opts fl pm) input).Include = input.Include := by
  induction K with
  | nil => intro input; rfl
  | cons k t ih =>
    intro input
    simp only [List.foldl_cons]
    rw [ih, processBaseConfig_Include]

theorem foldl_fileStep_Metric (s : Object) (ks : List String) :
    ∀ (acc : InputPrometheusHttp × List (String × String)),
    ((ks.foldl (fileStep s) acc).1.Metric = acc.1.Metric ∧
     (ks.foldl (fileStep s) acc).1.Tags = acc.1.Tags ∧
     (ks.foldl (fileStep s) acc).1.Include = acc.1.Include) := by
  induction ks with
  | nil => intro acc; exact ⟨rfl, rfl, rfl⟩
  | cons k t ih =>
    intro acc
    simp only [List.foldl_cons]
    exact ih (fileStep s acc k)

/-- All metric entries generated by the builder for the Object, as the
concatenation of per-BaseConfig contributions in sorted key order. -/
def promMetricsOf (s : Object) : List InputPrometheusHttpMetric :=
  ((sortStrings (GetBaseConfigKeys s.Configs)).map (configContribution s)).flatten

theorem promInput2_Metric (s : Object) (ltpl : String)
    (opts : InputPrometheusHttpOptions) (name : String) (pm : Bool) :
    (promInput2 s ltpl opts name pm).Metric = promMetricsOf s := by
  unfold promInput2 promMetricsOf
  rw [foldl_processBaseConfig_Metric, (foldl_fileStep_Metric s _ _).1]
  rfl

theorem promInput2_Tags (s : Object) (ltpl : String)
    (opts : InputPrometheusHttpOptions) (name : String) (pm : Bool) :
    (promInput2 s ltpl opts name pm).Tags = [] := by
  unfold promInput2
  rw [foldl_processBaseConfig_Tags, (foldl_fileStep_Metric s _ _).2.1]

theorem promInput2_Include (s : Object) (ltpl : String)
    (opts : InputPrometheusHttpOptions) (name : String) (pm : Bool) :
    (promInput2 s ltpl opts name pm).Include = [] := by
  unfold promInput2
  rw [foldl_processBaseConfig_Include, (foldl_fileStep_Metric s _ _).2.2]

theorem promInput3_Metric (s : Object) (ltpl : String)
    (opts : InputPrometheusHttpOptions) (name : String) (pm : Bool) :
    (promInput3 s ltpl opts name pm).Metric = promMetricsOf s :=
  promInput2_Metric s ltpl opts name pm

theorem promInput3_Include (s : Object) (ltpl : String)
    (opts : InputPrometheusHttpOptions) (name : String) (pm : Bool) :
    (promInput3 s ltpl opts name pm).Include =
      sortStrings (dedupTags opts.DefaultTags) := by
  show sortStrings (updateIncludeTags (promInput2 s ltpl opts name pm).Include
    opts.DefaultTags (promInput2 s ltpl opts name pm).Tags) =
      sortStrings (dedupTags opts.DefaultTags)
  rw [promInput2_Include, promInput2_Tags]
  simp [updateIncludeTags, dedupTags]

theorem genProm_error_case (tc : Config) (s : Object) (ltpl : String)
    (opts : InputPrometheusHttpOptions) (name : String) (pm : Bool)
    (h : promMetricsOf s = []) :
    tc.GenerateInputPrometheusHttpBytes s ltpl opts name pm =
      (tc, none, some "Metrics are not found.") := by
  unfold Config.GenerateInputPrometheusHttpBytes
  rw [promInput2_Metric, h]
  rfl

theorem genProm_success_case (tc : Config) (s : Object) (ltpl : String)
    (opts : InputPrometheusHttpOptions) (name : String) (pm : Bool)
    (h : promMetricsOf s ≠ []) :
    tc.GenerateInputPrometheusHttpBytes s ltpl opts name pm =
      ({ tc with Inputs.PrometheusHttp := tc.Inputs.PrometheusHttp
          ++ [promInput3 s ltpl opts name pm] },
        some (encodeConfig { tc with Inputs.PrometheusHttp :=
          tc.Inputs.PrometheusHttp ++ [promInput3 s ltpl opts name pm] }),
        none) := by
  unfold Config.GenerateInputPrometheusHttpBytes
  rw [promInput2_Metric]
  cases hp : promMetricsOf s with
  | nil => exact absurd hp h
  | cons a l => rfl

theorem genProm_err_iff (tc : Config) (s : Object) (ltpl : String)
    (opts : InputPrometheusHttpOptions) (name : String) (pm : Bool) :
    ((tc.GenerateInputPrometheusHttpBytes s ltpl opts name pm).2.2).isSome
      ↔ promMetricsOf s = [] := by
  constructor
  · intro h
    by_contra hne
    rw [genProm_success_case tc s ltpl opts name pm hne] at h
    simp at h
  · intro h
    rw [genProm_error_case tc s ltpl opts name pm h]
    rfl

theorem genProm_err_msg (tc : Config) (s : Object) (ltpl : String)
    (opts : InputPrometheusHttpOptions) (name : String) (pm : Bool)
    (h : ((tc.GenerateInputPrometheusHttpBytes s ltpl opts name pm).2.2).isSome) :
    tc.GenerateInputPrometheusHttpBytes s ltpl opts name pm =
      (tc, none, some "Metrics are not found.") :=
  genProm_error_case tc s ltpl opts name pm
    ((genProm_err_iff tc s ltpl opts name pm).mp h)

/-! ## Concrete fixtures used by witnesses and counterexamples -/

/-- A metric-builder options value with all fields unset. -/
def promOpts0 : InputPrometheusHttpOptions :=
  ⟨"", "", "", "", "", "", "", "", "", "", "", "", 0, "", "", "", [], ""⟩

/-- DNS options for the spec scenario: default tag list `["env"]`. -/
def dnsOptsEnv : InputDNSQueryOptions := ⟨"10s", "", "udp", "A", 53, 2, ["env"]⟩

/-- An Object with one BaseConfig whose Vars collide with the Object's own
Vars on key `"a"`. -/
def objClash : Object :=
  { Vars := [("a", "obj")], Files := [],
    Configs := [("cfg", ⟨[], [("a", "cfg")], [], [], ["m1"]⟩)],
    Metrics := [] }

/-- An Object with no BaseConfigs (and hence no producible metrics). -/
def objEmpty : Object := { Vars := [], Files := [], Configs := [], Metrics := [] }

/-! ## Claims -/

/-- Claim C9: for every combination of name, path, checksum flag, generated
bytes and filesystem state, `CreateIfCheckSumIsDifferent` behaves identically
to `CreateWithTemplateIfCheckSumIsDifferent` called with the empty template
string: same filesystem effect and same reported outcome. -/
theorem c9_create_delegates_to_template_variant (tc : Config)
    (name conf : String) (checksum : Bool) (bs : Option String) (fs : FS) :
    tc.CreateIfCheckSumIsDifferent name conf checksum bs fs =
      tc.CreateWithTemplateIfCheckSumIsDifferent name "" conf checksum bs fs := rfl

/-- Claim C6: a nil or empty generated byte sequence makes the persistence
gate return before any write or checksum step, with or without a template;
the filesystem is untouched and the outcome is a debug-logged skip, not an
error. -/
theorem c6_empty_bytes_skip (tc : Config) (name template conf : String)
    (checksum : Bool) (fs : FS) (bs : Option String)
    (h : bs = none ∨ bs = some "") :
    tc.CreateWithTemplateIfCheckSumIsDifferent name template conf checksum bs fs =
      (fs, [Event.debug (name ++ ": No query config")]) := by
  rcases h with h | h <;> subst h
  · rfl
  · have hE : ("" : String).isEmpty = true := rfl
    unfold Config.CreateWithTemplateIfCheckSumIsDifferent
    simp [hE]

/-- Witness for C6 at a concrete input (nil bytes, template supplied). -/
theorem c6_empty_bytes_skip_witness :
    emptyConfig.CreateWithTemplateIfCheckSumIsDifferent "n" "tpl" "cfg.conf"
      true none [] = ([], [Event.debug ("n" ++ ": No query config")]) :=
  c6_empty_bytes_skip emptyConfig "n" "tpl" "cfg.conf" true [] none (Or.inl rfl)

/-- Claim C5: for a non-empty generated sequence `B` and template `T`, the
content handed to the checksum/compare-and-write step is `B ++ "\n" ++ T`
when `T` is non-empty and `B` unchanged when `T` is empty; the write-or-skip
decision and the resulting filesystem are entirely determined by that merged
content. -/
theorem c5_template_merge (tc : Config) (name template conf : String)
    (checksum : Bool) (s : String) (fs : FS) (hs : s ≠ "") :
    tc.CreateWithTemplateIfCheckSumIsDifferent name template conf checksum
        (some s) fs =
      (let merged := if template = "" then s else s ++ "\n" ++ template
       let r := FileWriteWithCheckSum fs conf merged checksum
       if r.2 then
         (r.1, [Event.debug (name ++ ": File " ++ conf ++ " exists, skipped")])
       else
         (r.1, [Event.debug (name ++ ": File " ++ conf ++ " created or replaced"),
           Event.wrote conf])) := by
  have hsE : s.isEmpty = false := by
    cases hE : s.isEmpty with
    | false => rfl
    | true => exact absurd ((String.isEmpty_iff _).mp hE) hs
  have h0 : ("" : String).isEmpty = true := rfl
  unfold Config.CreateWithTemplateIfCheckSumIsDifferent utilsIsEmpty
  by_cases ht : template = ""
  · subst ht
    simp [hsE, h0]
  · have htE : template.isEmpty = false := by
      cases hE : template.isEmpty with
      | false => rfl
      | true => exact absurd ((String.isEmpty_iff _).mp hE) ht
    simp [hsE, htE, ht]

/-- Witness for C5 at a concrete input: non-empty bytes, non-empty template,
checksum mode off — the file receives the merged content. -/
theorem c5_template_merge_witness :
    emptyConfig.CreateWithTemplateIfCheckSumIsDifferent "n" "tpl" "cfg.conf"
      false (some "body") [] =
      (let merged := if ("tpl" : String) = "" then "body" else "body" ++ "\n" ++ "tpl"
       let r := FileWriteWithCheckSum [] "cfg.conf" merged false
       if r.2 then
         (r.1, [Event.debug ("n" ++ ": File " ++ "cfg.conf" ++ " exists, skipped")])
       else
         (r.1, [Event.debug ("n" ++ ": File " ++ "cfg.conf" ++ " created or replaced"),
           Event.wrote "cfg.conf"])) :=
  c5_template_merge emptyConfig "n" "tpl" "cfg.conf" false "body" [] (by decide)

/-- Claim C8: when the metrics builder returns its zero-metrics error, the
serialization container is left unchanged (the failed record is not appended)
and the returned byte slice is nil. -/
theorem c8_error_atomicity (tc : Config) (s : Object) (ltpl : String)
    (opts : InputPrometheusHttpOptions) (name : String) (pm : Bool)
    (h : ((tc.GenerateInputPrometheusHttpBytes s ltpl opts name pm).2.2).isSome) :
    (tc.GenerateInputPrometheusHttpBytes s ltpl opts name pm).1 = tc ∧
    (tc.GenerateInputPrometheusHttpBytes s ltpl opts name pm).2.1 = none := by
  rw [genProm_err_msg tc s ltpl opts name pm h]
  exact ⟨rfl, rfl⟩

/-- Witness for C8: a service object with no BaseConfigs errors and leaves
the container untouched with nil bytes. -/
theorem c8_error_atomicity_witness :
    (emptyConfig.GenerateInputPrometheusHttpBytes objEmpty "" promOpts0
      "svc" false).1 = emptyConfig ∧
    (emptyConfig.GenerateInputPrometheusHttpBytes objEmpty "" promOpts0
      "svc" false).2.1 = none :=
  c8_error_atomicity emptyConfig objEmpty "" promOpts0 "svc" false (by decide)

/-- Claim C10: every record emitted by the HTTP-response builder has
`InsecureSkipVerify` set to `true`, unconditionally — the options type has no
field that can switch certificate verification on. -/
theorem c10_http_insecure_skip_verify (tc : Config)
    (opts : InputHTTPResponseOptions) (urls : List (String × Labels))
    (r : InputHTTPResponse)
    (h : r ∈ (tc.GenerateInputHTTPResponseBytes opts urls).1.Inputs.HTTPResponse) :
    r ∈ tc.Inputs.HTTPResponse ∨ r.InsecureSkipVerify = true := by
  have hstruct : (tc.GenerateInputHTTPResponseBytes opts urls).1.Inputs.HTTPResponse
      = tc.Inputs.HTTPResponse ++ (sortStrings (GetLabelsKeys urls)).map
          (mkHTTPRecord opts urls) := rfl
  rw [hstruct] at h
  rcases List.mem_append.mp h with h | h
  · exact Or.inl h
  · right
    obtain ⟨k, -, hk⟩ := List.mem_map.mp h
    rw [← hk]
    rfl

/-- Witness for C10 at a concrete URL map. -/
theorem c10_http_insecure_skip_verify_witness :
    mkHTTPRecord ⟨"10s", "", "", "GET", false, "", 200, "5s", ["env"]⟩
        [("u", [("k", "v")])] "u" ∈ emptyConfig.Inputs.HTTPResponse ∨
      (mkHTTPRecord ⟨"10s", "", "", "GET", false, "", 200, "5s", ["env"]⟩
        [("u", [("k", "v")])] "u").InsecureSkipVerify = true :=
  c10_http_insecure_skip_verify emptyConfig
    ⟨"10s", "", "", "GET", false, "", 200, "5s", ["env"]⟩
    [("u", [("k", "v")])] _ (by decide)

/-- Claim C7: for a discovery-type name other than Signal, Cert, DNS, HTTP
and TCP, `Process` invokes no builder and no persistence-gate call (the
filesystem comes back untouched, no write event) and reports no error — the
unknown name is only logged. -/
theorem c7_unknown_discovery_noop (t : Telegraf) (render : RenderFn)
    (d : Discovery) (so : SinkObject) (fs : FS)
    (h : d.Name ∉ (["Signal", "Cert", "DNS", "HTTP", "TCP"] : List String)) :
    t.Process render d so fs =
      (fs, [Event.debug ("Telegraf has to process " ++ toString so.Map.length
          ++ " objects from " ++ d.Name ++ "..."),
        Event.debug ("Telegraf has no support for " ++ d.Name)]) := by
  simp only [List.mem_cons, List.not_mem_nil, or_false, not_or] at h
  obtain ⟨h1, h2, h3, h4, h5⟩ := h
  unfold Telegraf.Process
  simp [h1, h2, h3, h4, h5]

/-- Witness for C7: the unknown name `PubSub` is a logged no-op. -/
theorem c7_unknown_discovery_noop_witness :
    (Telegraf.mk ⟨[], ⟨promOpts0, "", ""⟩,
        ⟨⟨"", "", "", false, "", "", "", "", false, "", []⟩, "", ""⟩,
        ⟨⟨"", "", "", "", 0, 0, []⟩, "", ""⟩,
        ⟨⟨"", "", "", "", false, "", 0, "", []⟩, "", ""⟩,
        ⟨⟨"", "", "", "", "", []⟩, "", ""⟩, false⟩).Process
      (fun tpl _ => tpl) ⟨"PubSub", "src"⟩ ⟨[], none⟩ [] =
      ([], [Event.debug ("Telegraf has to process "
          ++ toString ([] : SinkMap).length ++ " objects from " ++ "PubSub" ++ "..."),
        Event.debug ("Telegraf has no support for " ++ "PubSub")]) :=
  c7_unknown_discovery_noop _ _ _ _ _ (by decide)

theorem mem_promMetricsOf {s : Object} {m : InputPrometheusHttpMetric}
    (hm : m ∈ promMetricsOf s) :
    ∃ p ∈ s.Configs, m.Vars = MergeStringMaps [p.2.Vars, s.Vars] := by
  unfold promMetricsOf at hm
  obtain ⟨l, hl, hml⟩ := List.mem_flatten.mp hm
  obtain ⟨k, hkmem, rfl⟩ := List.mem_map.mp hl
  have hk' : k ∈ GetBaseConfigKeys s.Configs :=
    (perm_sortStrings _).mem_iff.mp hkmem
  obtain ⟨c, hc⟩ := mapLookup_isSome_of_mem (by simpa [GetBaseConfigKeys] using hk')
  simp only [configContribution, hc, Option.getD_some] at hml
  obtain ⟨n, -, rfl⟩ := List.mem_map.mp hml
  exact ⟨(k, c), mapLookup_mem hc, rfl⟩

/-- Claim C1 (amended): the Vars map used to build a BaseConfig's records is
`MergeStringMaps(c.Vars, s.Vars)`, and for a key present in both maps the
OBJECT-level value takes precedence (the later argument of the merge
overwrites), so BaseConfig-level values act as the defaults — the opposite
precedence of the one claimed. -/
theorem c1_vars_merge_object_precedence :
    (∀ (tc : Config) (s : Object) (ltpl : String)
      (opts : InputPrometheusHttpOptions) (name : String) (pm : Bool)
      (rec : InputPrometheusHttp),
      rec ∈ (tc.GenerateInputPrometheusHttpBytes s ltpl opts name
        pm).1.Inputs.PrometheusHttp →
      rec ∈ tc.Inputs.PrometheusHttp ∨
        ∀ m ∈ rec.Metric, ∃ p ∈ s.Configs,
          m.Vars = MergeStringMaps [p.2.Vars, s.Vars]) ∧
    (∀ (c : BaseConfig) (s : Object) (k v1 v2 : String),
      (c.Vars.map Prod.fst).Nodup → (s.Vars.map Prod.fst).Nodup →
      mapLookup c.Vars k = some v1 → mapLookup s.Vars k = some v2 →
      mapLookup (MergeStringMaps [c.Vars, s.Vars]) k = some v2) := by
  constructor
  · intro tc s ltpl opts name pm rec hmem
    by_cases he : promMetricsOf s = []
    · rw [genProm_error_case tc s ltpl opts name pm he] at hmem
      exact Or.inl hmem
    · rw [genProm_success_case tc s ltpl opts name pm he] at hmem
      simp only [List.mem_append, List.mem_singleton] at hmem
      rcases hmem with hmem | hmem
      · exact Or.inl hmem
      · right
        intro m hm
        rw [hmem] at hm
        rw [promInput3_Metric] at hm
        exact mem_promMetricsOf hm
  · intro c s k v1 v2 h1 h2 hv1 hv2
    rw [mapLookup_mergeTwo c.Vars s.Vars k h1 h2, hv2]
    rfl

/-- Counterexample for C1: with Object vars `a=obj` and BaseConfig vars
`a=cfg`, the metric emitted for that BaseConfig carries `a=obj` — not the
BaseConfig-level value `cfg` the claim promises. -/
theorem c1_vars_merge_counterexample :
    (emptyConfig.GenerateInputPrometheusHttpBytes objClash "" promOpts0 "svc"
        false).1.Inputs.PrometheusHttp.map
      (fun rec => rec.Metric.map (fun m => mapLookup m.Vars "a")) =
      [[some "obj"]] ∧ (some "obj" : Option String) ≠ some "cfg" := by
  decide

/-- Witness for the amended C1: on the clashing maps `a=cfg` (BaseConfig) and
`a=obj` (Object) the merge yields the Object value. -/
theorem c1_vars_merge_object_precedence_witness :
    mapLookup (MergeStringMaps [[("a", "cfg")], [("a", "obj")]]) "a" =
      some "obj" :=
  c1_vars_merge_object_precedence.2 ⟨[], [("a", "cfg")], [], [], ["m1"]⟩
    objClash "a" "cfg" "obj" (by decide) (by decide) (by decide) (by decide)

theorem updateIncludeTags_nil (tags : List String) :
    updateIncludeTags [] tags [] = dedupTags tags := by
  simp [updateIncludeTags, dedupTags]

/-- Claim C3 (amended): each emitted record's Include list is the sorted
de-duplication of the options' default-tag names ALONE; the per-record label
keys never contribute, because every builder computes and sorts Include
while the record's Tags map is still empty (Tags is assigned afterwards) and
the metrics builder's record-level Tags map stays empty. -/
theorem c3_include_is_default_tags_only :
    (∀ (tc : Config) (opts : InputDNSQueryOptions)
      (domains : List (String × Labels)) (r : InputDNSQuery),
      r ∈ (tc.GenerateInputDNSQueryBytes opts domains).1.Inputs.DNSQuery →
      r ∈ tc.Inputs.DNSQuery ∨ r.Include = sortStrings (dedupTags opts.Tags)) ∧
    (∀ (tc : Config) (opts : InputHTTPResponseOptions)
      (urls : List (String × Labels)) (r : InputHTTPResponse),
      r ∈ (tc.GenerateInputHTTPResponseBytes opts urls).1.Inputs.HTTPResponse →
      r ∈ tc.Inputs.HTTPResponse ∨ r.Include = sortStrings (dedupTags opts.Tags)) ∧
    (∀ (tc : Config) (opts : InputNetResponseOptions)
      (addresses : List (String × Labels)) (protocol : String)
      (r : InputNetResponse),
      r ∈ (tc.GenerateInputNETResponseBytes opts addresses
        protocol).1.Inputs.NetResponse →
      r ∈ tc.Inputs.NetResponse ∨ r.Include = sortStrings (dedupTags opts.Tags)) ∧
    (∀ (tc : Config) (opts : InputX509CertOptions)
      (addresses : List (String × Labels)) (r : InputX509Cert),
      r ∈ (tc.GenerateInputX509CertBytes opts addresses).1.Inputs.X509Cert →
      r ∈ tc.Inputs.X509Cert ∨ r.Include = sortStrings (dedupTags opts.Tags)) ∧
    (∀ (tc : Config) (s : Object) (ltpl : String)
      (opts : InputPrometheusHttpOptions) (name : String) (pm : Bool)
      (r : InputPrometheusHttp),
      r ∈ (tc.GenerateInputPrometheusHttpBytes s ltpl opts name
        pm).1.Inputs.PrometheusHttp →
      r ∈ tc.Inputs.PrometheusHttp ∨
        r.Include = sortStrings (dedupTags opts.DefaultTags)) := by
  refine ⟨?_, ?_, ?_, ?_, ?_⟩
  · intro tc opts domains r h
    have hstruct : (tc.GenerateInputDNSQueryBytes opts domains).1.Inputs.DNSQuery
        = tc.Inputs.DNSQuery ++ (sortStrings (GetLabelsKeys domains)).map
            (mkDNSRecord opts (dnsServers opts.Servers) domains) := rfl
    rw [hstruct] at h
    rcases List.mem_append.mp h with h | h
    · exact Or.inl h
    · right
      obtain ⟨k, -, hk⟩ := List.mem_map.mp h
      rw [← hk]
      show sortStrings (updateIncludeTags [] opts.Tags []) =
        sortStrings (dedupTags opts.Tags)
      rw [updateIncludeTags_nil]
  · intro tc opts urls r h
    have hstruct : (tc.GenerateInputHTTPResponseBytes opts urls).1.Inputs.HTTPResponse
        = tc.Inputs.HTTPResponse ++ (sortStrings (GetLabelsKeys urls)).map
            (mkHTTPRecord opts urls) := rfl
    rw [hstruct] at h
    rcases List.mem_append.mp h with h | h
    · exact Or.inl h
    · right
      obtain ⟨k, -, hk⟩ := List.mem_map.mp h
      rw [← hk]
      show sortStrings (updateIncludeTags [] opts.Tags []) =
        sortStrings (dedupTags opts.Tags)
      rw [updateIncludeTags_nil]
  · intro tc opts addresses protocol r h
    have hstruct : (tc.GenerateInputNETResponseBytes opts addresses
          protocol).1.Inputs.NetResponse
        = tc.Inputs.NetResponse ++ (sortStrings (GetLabelsKeys addresses)).map
            (mkNETRecord opts addresses protocol) := rfl
    rw [hstruct] at h
    rcases List.mem_append.mp h with h | h
    · exact Or.inl h
    · right
      obtain ⟨k, -, hk⟩ := List.mem_map.mp h
      rw [← hk]
      show sortStrings (updateIncludeTags [] opts.Tags []) =
        sortStrings (dedupTags opts.Tags)
      rw [updateIncludeTags_nil]
  · intro tc opts addresses r h
    have hstruct : (tc.GenerateInputX509CertBytes opts addresses).1.Inputs.X509Cert
        = tc.Inputs.X509Cert ++ (sortStrings (GetLabelsKeys addresses)).map
            (mkX509Record opts addresses) := rfl
    rw [hstruct] at h
    rcases List.mem_append.mp h with h | h
    · exact Or.inl h
    · right
      obtain ⟨k, -, hk⟩ := List.mem_map.mp h
      rw [← hk]
      show sortStrings (updateIncludeTags [] opts.Tags []) =
        sortStrings (dedupTags opts.Tags)
      rw [updateIncludeTags_nil]
  · intro tc s ltpl opts name pm r h
    by_cases he : promMetricsOf s = []
    · rw [genProm_error_case tc s ltpl opts name pm he] at h
      exact Or.inl h
    · rw [genProm_success_case tc s ltpl opts name pm he] at h
      simp only [List.mem_append, List.mem_singleton] at h
      rcases h with h | h
      · exact Or.inl h
      · right
        rw [h, promInput3_Include]

/-- Witness for the amended C3 at a concrete DNS input. -/
theorem c3_include_is_default_tags_only_witness :
    mkDNSRecord dnsOptsEnv (dnsServers dnsOptsEnv.Servers)
        [("a.com", [("foo", "x")])] "a.com" ∈ emptyConfig.Inputs.DNSQuery ∨
      (mkDNSRecord dnsOptsEnv (dnsServers dnsOptsEnv.Servers)
        [("a.com", [("foo", "x")])] "a.com").Include =
        sortStrings (dedupTags dnsOptsEnv.Tags) :=
  c3_include_is_default_tags_only.1 emptyConfig dnsOptsEnv
    [("a.com", [("foo", "x")])] _ (by decide)

/-- Counterexample for C3: a DNS target with label key `foo` and default tag
list `["env"]` yields `Include = ["env"]`, not the claimed sorted
de-duplicated union `["env", "foo"]` of default tags and label keys. -/
theorem c3_include_counterexample :
    ((emptyConfig.GenerateInputDNSQueryBytes dnsOptsEnv
        [("a.com", [("foo", "x")])]).1.Inputs.DNSQuery.map
      (fun r => (r.Include, r.Tags))) = [(["env"], [("foo", "x")])] ∧
    (["env"] : List String) ≠
      sortStrings (dedupTags (dnsOptsEnv.Tags ++ [("foo", "x")].map Prod.fst)) := by
  decide

/-- Claim C2: the DNS builder emits exactly one record per target key, in
lexicographic key order regardless of map iteration order, each record
carrying the Labels value of its key as Tags; and on the spec scenario
(`b.com`/`a.com` with default tag `env`) the records come out in order
`a.com`, `b.com` with `Include = ["env"]` and matching Tags. -/
theorem c2_dns_builder_deterministic (tc : Config)
    (opts : InputDNSQueryOptions) (domains : List (String × Labels)) :
    ((tc.GenerateInputDNSQueryBytes opts domains).1.Inputs.DNSQuery =
      tc.Inputs.DNSQuery ++ (sortStrings (GetLabelsKeys domains)).map
        (mkDNSRecord opts (dnsServers opts.Servers) domains)) ∧
    List.Perm (sortStrings (GetLabelsKeys domains)) (GetLabelsKeys domains) ∧
    List.Sorted SLe (sortStrings (GetLabelsKeys domains)) ∧
    (∀ k, (mkDNSRecord opts (dnsServers opts.Servers) domains k).Domains = [k] ∧
      (mkDNSRecord opts (dnsServers opts.Servers) domains k).Tags =
        (mapLookup domains k).getD []) ∧
    (∀ domains' : List (String × Labels), List.Perm domains domains' →
      (domains.map Prod.fst).Nodup →
      tc.GenerateInputDNSQueryBytes opts domains =
        tc.GenerateInputDNSQueryBytes opts domains') ∧
    ((emptyConfig.GenerateInputDNSQueryBytes dnsOptsEnv
        [("b.com", [("env", "prod")]), ("a.com", [("env", "dev")])]).1.Inputs.DNSQuery.map
      (fun r => (r.Domains, r.Include, r.Tags)) =
      [(["a.com"], ["env"], [("env", "dev")]),
       (["b.com"], ["env"], [("env", "prod")])]) := by
  refine ⟨rfl, perm_sortStrings _, sorted_sortStrings _,
    fun k => ⟨rfl, rfl⟩, ?_, by decide⟩
  intro domains' hp hn
  have hkeys : sortStrings (GetLabelsKeys domains) =
      sortStrings (GetLabelsKeys domains') := by
    simp only [GetLabelsKeys]
    exact sortStrings_perm_congr (hp.map Prod.fst)
  have hrec : ∀ k, mkDNSRecord opts (dnsServers opts.Servers) domains k =
      mkDNSRecord opts (dnsServers opts.Servers) domains' k := by
    intro k
    unfold mkDNSRecord
    rw [mapLookup_perm hp hn k]
  have hmap : (sortStrings (GetLabelsKeys domains)).map
        (mkDNSRecord opts (dnsServers opts.Servers) domains) =
      (sortStrings (GetLabelsKeys domains')).map
        (mkDNSRecord opts (dnsServers opts.Servers) domains') := by
    rw [← hkeys]
    exact List.map_congr_left (fun a _ => hrec a)
  simp only [Config.GenerateInputDNSQueryBytes]
  rw [hmap]

/-- Witness for C2: the spec-scenario map presented in two iteration orders
produces the identical result. -/
theorem c2_dns_builder_deterministic_witness :
    emptyConfig.GenerateInputDNSQueryBytes dnsOptsEnv
        [("b.com", [("env", "prod")]), ("a.com", [("env", "dev")])] =
      emptyConfig.GenerateInputDNSQueryBytes dnsOptsEnv
        [("a.com", [("env", "dev")]), ("b.com", [("env", "prod")])] :=
  (c2_dns_builder_deterministic emptyConfig dnsOptsEnv
      [("b.com", [("env", "prod")]), ("a.com", [("env", "dev")])]).2.2.2.2.1
    [("a.com", [("env", "dev")]), ("b.com", [("env", "prod")])]
    (List.Perm.swap _ _ _) (by decide)

theorem promMetricsOf_eq_nil_iff (s : Object)
    (hn : (s.Configs.map Prod.fst).Nodup) :
    promMetricsOf s = [] ↔
      ∀ p ∈ s.Configs,
        p.2.Qualities = [] ∧ p.2.Availability = [] ∧ p.2.Metrics = [] := by
  unfold promMetricsOf
  rw [List.flatten_eq_nil_iff]
  constructor
  · intro h p hp
    have hk : p.1 ∈ GetBaseConfigKeys s.Configs :=
      List.mem_map.mpr ⟨p, hp, rfl⟩
    have hk' : p.1 ∈ sortStrings (GetBaseConfigKeys s.Configs) :=
      (perm_sortStrings _).mem_iff.mpr hk
    have hc := h (configContribution s p.1)
      (List.mem_map.mpr ⟨p.1, hk', rfl⟩)
    have hl : mapLookup s.Configs p.1 = some p.2 :=
      mapLookup_nodup_eq hn (by rw [Prod.mk.eta]; exact hp)
    simp only [configContribution, hl, Option.getD_some,
      List.map_eq_nil_iff, List.append_eq_nil] at hc
    exact ⟨hc.1.1, hc.1.2, hc.2⟩
  · intro h l hl
    obtain ⟨k, hk, rfl⟩ := List.mem_map.mp hl
    by_cases hkk : k ∈ s.Configs.map Prod.fst
    · obtain ⟨c, hc⟩ := mapLookup_isSome_of_mem hkk
      have hcomp := h (k, c) (mapLookup_mem hc)
      have hq : c.Qualities = [] := hcomp.1
      have ha : c.Availability = [] := hcomp.2.1
      have hm : c.Metrics = [] := hcomp.2.2
      simp [configContribution, hc, hq, ha, hm]
    · have hnone : mapLookup s.Configs k = none :=
        (mapLookup_eq_none_iff s.Configs k).mpr hkk
      simp [configContribution, hnone]

/-- Claim C4: the metrics builder errors exactly when, after processing every
BaseConfig of the Object, zero metric entries were generated; on such an
error the dispatcher's per-service step performs no persistence (filesystem
untouched, only the error is logged); and the four label-map builders
applied to an empty input map produce no error and emit zero records. -/
theorem c4_metrics_error_asymmetry :
    (∀ (tc : Config) (s : Object) (ltpl : String)
      (opts : InputPrometheusHttpOptions) (name : String) (pm : Bool),
      (s.Configs.map Prod.fst).Nodup →
      (((tc.GenerateInputPrometheusHttpBytes s ltpl opts name pm).2.2).isSome ↔
        ∀ p ∈ s.Configs,
          p.2.Qualities = [] ∧ p.2.Availability = [] ∧ p.2.Metrics = [])) ∧
    (∀ (sig : TelegrafSignalOptions) (checksum : Bool) (render : RenderFn)
      (source : String) (fs : FS) (evs : List Event) (k : String) (s1 : Object),
      ((emptyConfig.GenerateInputPrometheusHttpBytes s1 sig.Tags sig.Opts
        (render sig.Template s1.Vars) false).2.2).isSome →
      processSignalStep sig checksum render source (fs, evs) (k, s1) =
        (fs, evs ++ [Event.debug (source ++ ": Processing service: " ++ k),
          Event.debug (source ++ ": Found metrics"),
          Event.errlog (source ++ ": Service " ++ k ++ " error: "
            ++ "Metrics are not found.")])) ∧
    (∀ (tc : Config) (opts : InputDNSQueryOptions),
      (tc.GenerateInputDNSQueryBytes opts []).1 = tc ∧
      (tc.GenerateInputDNSQueryBytes opts []).2.2 = none) ∧
    (∀ (tc : Config) (opts : InputHTTPResponseOptions),
      (tc.GenerateInputHTTPResponseBytes opts []).1 = tc ∧
      (tc.GenerateInputHTTPResponseBytes opts []).2.2 = none) ∧
    (∀ (tc : Config) (opts : InputNetResponseOptions) (protocol : String),
      (tc.GenerateInputNETResponseBytes opts [] protocol).1 = tc ∧
      (tc.GenerateInputNETResponseBytes opts [] protocol).2.2 = none) ∧
    (∀ (tc : Config) (opts : InputX509CertOptions),
      (tc.GenerateInputX509CertBytes opts []).1 = tc ∧
      (tc.GenerateInputX509CertBytes opts []).2.2 = none) := by
  refine ⟨?_, ?_, ?_, ?_, ?_, ?_⟩
  · intro tc s ltpl opts name pm hn
    rw [genProm_err_iff]
    exact promMetricsOf_eq_nil_iff s hn
  · intro sig checksum render source fs evs k s1 herr
    have hmsg := genProm_err_msg emptyConfig s1 sig.Tags sig.Opts
      (render sig.Template s1.Vars) false herr
    simp only [processSignalStep]
    rw [hmsg]
    simp [List.append_assoc]
  · intro tc opts
    constructor
    · show ({ tc with Inputs.DNSQuery := tc.Inputs.DNSQuery ++ [] } : Config) = tc
      simp
    · rfl
  · intro tc opts
    constructor
    · show ({ tc with Inputs.HTTPResponse := tc.Inputs.HTTPResponse ++ [] } : Config) = tc
      simp
    · rfl
  · intro tc opts protocol
    constructor
    · show ({ tc with Inputs.NetResponse := tc.Inputs.NetResponse ++ [] } : Config) = tc
      simp
    · rfl
  · intro tc opts
    constructor
    · show ({ tc with Inputs.X509Cert := tc.Inputs.X509Cert ++ [] } : Config) = tc
      simp
    · rfl

/-- Witness for C4: an Object with no BaseConfigs makes the metrics builder
error, and the dispatcher step for such a service leaves the filesystem
untouched with only log events. -/
theorem c4_metrics_error_asymmetry_witness :
    ((emptyConfig.GenerateInputPrometheusHttpBytes objEmpty "" promOpts0
      "svc" false).2.2).isSome ∧
    processSignalStep ⟨promOpts0, "tplX", "lt"⟩ false (fun tpl _ => tpl)
        "src" ([], []) ("k1", objEmpty) =
      ([], [Event.debug ("src" ++ ": Processing service: " ++ "k1"),
        Event.debug ("src" ++ ": Found metrics"),
        Event.errlog ("src" ++ ": Service " ++ "k1" ++ " error: "
          ++ "Metrics are not found.")]) := by
  constructor
  · exact (c4_metrics_error_asymmetry.1 emptyConfig objEmpty "" promOpts0
      "svc" false (by decide)).mpr (fun p hp => absurd hp (List.not_mem_nil p))
  · have h := c4_metrics_error_asymmetry.2.1 ⟨promOpts0, "tplX", "lt"⟩ false
      (fun tpl _ => tpl) "src" [] [] "k1" objEmpty (by decide)
    simpa using h

end Disco
